import Mathlib

/-!
Verification development for the rklink-logger frontend logging utility
(`src/logger.ts`, the leveled `Logger` class).

Modelling conventions (shallow embedding):
* The logger only ever touches the single localStorage key `storageKey`
  ("RKLINK_FRONTEND_LOGS"), so the storage medium is modelled as that one
  slot, of type `Option RawValue` (`none` = key absent).
* A stored string is modelled by its parse: `RawValue.jsonLogs l` stands for
  any string that `JSON.parse`s to the log array `l` (e.g. the output of
  `JSON.stringify(l)` or of `JSON.stringify(l, null, 2)`; such a string is
  never empty, since an array serialization contains at least `[]`), and
  `RawValue.other s` stands for a string `s` that does not parse as a log
  array.  JavaScript's falsiness check `!raw` is `rawFalsy`.
* ISO-8601 timestamps are modelled by their epoch-millisecond value
  (`Int`); `new Date(ts).getTime()` is then the identity.
* Storage failures (quota, disabled storage) are modelled by the flags of a
  `StorageEnv`: a failing `setItem`/`getItem`/`removeItem` is one whose flag
  is `false`; the `try`/`catch` wrappers in the source then leave the slot
  unchanged / return `null` / do nothing, exactly as modelled.
* The `data?: any` payload is modelled by `JsData`, distinguishing exactly
  what `createLogEntry` inspects: an `Error` instance (with its possibly
  absent `stack`), a non-`Error` object (whose `stack` field is absent,
  empty—hence falsy—or a nonempty string), or any other value.
* Every operation is a pure function from the logger state, storage
  environment and slot to its result and the new slot; console output is
  returned as a list of emitted `ConsoleMsg`s.  All operations are total:
  "the call returns normally" holds by construction, and the theorems
  pin down the remaining observable behaviour.
* The constructor's two `addEventListener` registrations only install
  callbacks that re-enter the public `error` method; they do not touch the
  slot and no claim below concerns them, so they are not modelled.
-/

namespace RkLogger

/-- Log severity levels, from `enum LogLevel` in the source. -/
inductive LogLevel where
  | DEBUG
  | INFO
  | WARN
  | ERROR
deriving DecidableEq

/-- The `data?: any` payload, as far as `createLogEntry` inspects it:
an `Error` instance carrying an optional stack, a non-`Error` object whose
`stack` field is `none` (absent/falsy non-string), `some ""` (present but
falsy) or `some s` (truthy string), or any other JavaScript value. -/
inductive JsData where
  | errObj (stack : Option String)
  | obj (stack : Option String)
  | prim
deriving DecidableEq

/-- One captured log record, from `interface LogEntry`.  `timestamp` is the
epoch-millisecond value of the ISO-8601 string. -/
structure LogEntry where
  timestamp : Int
  level : LogLevel
  message : String
  data : Option JsData
  stack : Option String
  url : String
  userAgent : String
deriving DecidableEq

/-- A stored string, modelled by how `JSON.parse` sees it: `jsonLogs l` is a
string parsing to the array `l` (always nonempty as a string), `other s` is
a string that does not parse as a log array. -/
inductive RawValue where
  | jsonLogs (logs : List LogEntry)
  | other (s : String)
deriving DecidableEq

/-- JavaScript falsiness of `localStorage.getItem`'s result: `null` and the
empty string are falsy; an array serialization is never empty. -/
def rawFalsy : Option RawValue → Bool
  | none => true
  | some (RawValue.jsonLogs _) => false
  | some (RawValue.other s) => s.isEmpty

/-- `JSON.parse(raw) as LogEntry[]`: succeeds exactly on strings that parse
as a log array. -/
def parseLogs : RawValue → Option (List LogEntry)
  | RawValue.jsonLogs l => some l
  | RawValue.other _ => none

/-- Whether each storage primitive succeeds; a `false` flag models the
corresponding `localStorage` call throwing. -/
structure StorageEnv where
  getOk : Bool
  setOk : Bool
  removeOk : Bool
deriving DecidableEq

/-- Fully working storage. -/
def okEnv : StorageEnv := ⟨true, true, true⟩

/-- Working storage whose writes throw (quota exceeded / disabled), i.e.
`localStorage.setItem` fails while reads and removes work. -/
def setFailEnv : StorageEnv := ⟨true, false, true⟩

/-- The private mutable fields of `class Logger`. -/
structure LoggerState where
  maxLogs : Nat
  storageKey : String
  enabled : Bool
  levelThreshold : LogLevel
  logExpireDays : Nat
deriving DecidableEq

/-- The field initializers of `class Logger`. -/
def defaultState : LoggerState :=
  { maxLogs := 1000
    storageKey := "RKLINK_FRONTEND_LOGS"
    enabled := true
    levelThreshold := LogLevel.DEBUG
    logExpireDays := 30 }

/-- `levelOrder`: the numeric severity used for threshold comparison. -/
def levelOrder : LogLevel → Nat
  | LogLevel.DEBUG => 0
  | LogLevel.INFO => 1
  | LogLevel.WARN => 2
  | LogLevel.ERROR => 3

/-- `shouldLog`: `levelOrder(level) >= levelOrder(this.levelThreshold)`. -/
def shouldLog (st : LoggerState) (level : LogLevel) : Bool :=
  decide (levelOrder st.levelThreshold ≤ levelOrder level)

/-- `safeLocalStorageSet`: `localStorage.setItem` inside `try`/`catch`; on
failure the slot is unchanged. -/
def safeLocalStorageSet (env : StorageEnv) (slot : Option RawValue)
    (value : RawValue) : Option RawValue :=
  if env.setOk then some value else slot

/-- `safeLocalStorageGet`: `localStorage.getItem` inside `try`/`catch`; on
failure it returns `null`. -/
def safeLocalStorageGet (env : StorageEnv) (slot : Option RawValue) :
    Option RawValue :=
  if env.getOk then slot else none

/-- `clearLogs`: no-op when disabled, otherwise `localStorage.removeItem`
inside `try`/`catch` (on failure the slot is unchanged). -/
def clearLogs (st : LoggerState) (env : StorageEnv) (slot : Option RawValue) :
    Option RawValue :=
  if !st.enabled then slot
  else if env.removeOk then none else slot

/-- `getLogs`: empty when disabled or the raw read is falsy; otherwise the
parse of the raw string, with a defensive `clearLogs` when parsing fails.
Returns the list together with the (possibly cleared) slot. -/
def getLogs (st : LoggerState) (env : StorageEnv) (slot : Option RawValue) :
    List LogEntry × Option RawValue :=
  if !st.enabled then ([], slot)
  else
    let raw := safeLocalStorageGet env slot
    if rawFalsy raw then ([], slot)
    else
      match raw with
      | some rv =>
        match parseLogs rv with
        | some logs => (logs, slot)
        | none => ([], clearLogs st env slot)
      | none => ([], slot)

/-- The persisted collection as `getLogs` reports it. -/
def slotLogs (st : LoggerState) (env : StorageEnv) (slot : Option RawValue) :
    List LogEntry :=
  (getLogs st env slot).1

/-- `saveLog`: re-read the collection, `push` the entry, `shift` once when
the bound is exceeded, and write back through `safeLocalStorageSet`. -/
def saveLog (st : LoggerState) (env : StorageEnv) (slot : Option RawValue)
    (entry : LogEntry) : Option RawValue :=
  if !st.enabled then slot
  else if !shouldLog st entry.level then slot
  else
    let r := getLogs st env slot
    let logs := r.1 ++ [entry]
    let logs2 := if logs.length > st.maxLogs then logs.tail else logs
    safeLocalStorageSet env r.2 (RawValue.jsonLogs logs2)

/-- `cleanExpiredLogs`: drop entries older than `logExpireDays` relative to
`now` (`Date.now()`); write back only when something was dropped. -/
def cleanExpiredLogs (st : LoggerState) (env : StorageEnv) (now : Int)
    (slot : Option RawValue) : Option RawValue :=
  let expireTime := now - (st.logExpireDays : Int) * 24 * 60 * 60 * 1000
  let r := getLogs st env slot
  let filtered := r.1.filter (fun log => decide (expireTime ≤ log.timestamp))
  if filtered.length ≠ r.1.length then
    safeLocalStorageSet env r.2 (RawValue.jsonLogs filtered)
  else r.2

/-- The constructor: without a host environment (`window`/`document`) the
store is disabled after a one-time advisory `console.warn`; with one, the
expiration sweep runs (the two global handlers it registers never touch the
slot by themselves and are not modelled). -/
def initLogger (hostPresent : Bool) (env : StorageEnv) (now : Int)
    (slot : Option RawValue) : LoggerState × Option RawValue :=
  if !hostPresent then ({ defaultState with enabled := false }, slot)
  else (defaultState, cleanExpiredLogs defaultState env now slot)

/-- `setLevelThreshold`. -/
def setLevelThreshold (st : LoggerState) (level : LogLevel) : LoggerState :=
  { st with levelThreshold := level }

/-- `enable`. -/
def enable (st : LoggerState) : LoggerState :=
  { st with enabled := true }

/-- `disable`. -/
def disable (st : LoggerState) : LoggerState :=
  { st with enabled := false }

/-- The stack captured by `createLogEntry`: the `stack` of an attached
`Error`, else a truthy `stack` field of an object payload, else the
call-site trace `new Error().stack`. -/
def deriveStack (data : Option JsData) (callStack : Option String) :
    Option String :=
  match data with
  | some (JsData.errObj s) => s
  | some (JsData.obj (some s)) => if s.isEmpty then callStack else some s
  | some (JsData.obj none) => callStack
  | some JsData.prim => callStack
  | none => callStack

/-- Ambient context a log call observes: `Date.now()` for the timestamp,
`new Error().stack` at the call site, `window.location.href` and
`navigator.userAgent`. -/
structure Ambient where
  now : Int
  callStack : Option String
  url : String
  userAgent : String
deriving DecidableEq

/-- `createLogEntry`. -/
def createLogEntry (amb : Ambient) (level : LogLevel) (message : String)
    (data : Option JsData) : LogEntry :=
  { timestamp := amb.now
    level := level
    message := message
    data := data
    stack := deriveStack data amb.callStack
    url := amb.url
    userAgent := amb.userAgent }

/-- `colorMap`. -/
def colorMap : LogLevel → String
  | LogLevel.DEBUG => "color: gray"
  | LogLevel.INFO => "color: blue"
  | LogLevel.WARN => "color: orange"
  | LogLevel.ERROR => "color: red; font-weight: bold"

/-- The enum's string value, as interpolated into the console message. -/
def levelName : LogLevel → String
  | LogLevel.DEBUG => "DEBUG"
  | LogLevel.INFO => "INFO"
  | LogLevel.WARN => "WARN"
  | LogLevel.ERROR => "ERROR"

/-- One emitted console line: which `console.*` method (selected by the
entry's level in the source's `switch`), the formatted text and styles, and
the forwarded payload. -/
structure ConsoleMsg where
  channel : LogLevel
  text : String
  styleLevel : String
  styleMsg : String
  data : Option JsData
deriving DecidableEq

/-- `logToConsole`: silent below the threshold (note: it does not consult
`enabled`), otherwise one styled line on the channel matching the level. -/
def logToConsole (st : LoggerState) (entry : LogEntry) : List ConsoleMsg :=
  if !shouldLog st entry.level then []
  else
    [{ channel := entry.level
       text := "%c[" ++ levelName entry.level ++ "] %c" ++ entry.message
       styleLevel := colorMap entry.level
       styleMsg := "color: black; font-weight: normal"
       data := entry.data }]

/-- Common body of the four public logging methods: build the entry, then
`saveLog` and `logToConsole`. -/
def logWith (st : LoggerState) (env : StorageEnv) (level : LogLevel)
    (amb : Ambient) (message : String) (data : Option JsData)
    (slot : Option RawValue) : Option RawValue × List ConsoleMsg :=
  let entry := createLogEntry amb level message data
  (saveLog st env slot entry, logToConsole st entry)

/-- `debug`. -/
def debug (st : LoggerState) (env : StorageEnv) (amb : Ambient)
    (message : String) (data : Option JsData) (slot : Option RawValue) :
    Option RawValue × List ConsoleMsg :=
  logWith st env LogLevel.DEBUG amb message data slot

/-- `info`. -/
def info (st : LoggerState) (env : StorageEnv) (amb : Ambient)
    (message : String) (data : Option JsData) (slot : Option RawValue) :
    Option RawValue × List ConsoleMsg :=
  logWith st env LogLevel.INFO amb message data slot

/-- `warn`. -/
def warn (st : LoggerState) (env : StorageEnv) (amb : Ambient)
    (message : String) (data : Option JsData) (slot : Option RawValue) :
    Option RawValue × List ConsoleMsg :=
  logWith st env LogLevel.WARN amb message data slot

/-- `error`. -/
def error (st : LoggerState) (env : StorageEnv) (amb : Ambient)
    (message : String) (data : Option JsData) (slot : Option RawValue) :
    Option RawValue × List ConsoleMsg :=
  logWith st env LogLevel.ERROR amb message data slot

/-- `exportLogs`: `"[]"` when disabled, else `JSON.stringify(getLogs(), null,
2)`; the returned string is modelled by its parse (`RawValue.jsonLogs`).
The second component is the slot after the embedded `getLogs`. -/
def exportLogs (st : LoggerState) (env : StorageEnv)
    (slot : Option RawValue) : RawValue × Option RawValue :=
  if !st.enabled then (RawValue.jsonLogs [], slot)
  else
    let r := getLogs st env slot
    (RawValue.jsonLogs r.1, r.2)

/-- The record returned by `getLogsSummary`. -/
structure LogsSummary where
  total : Nat
  errors : Nat
  warnings : Nat
  info : Nat
  debug : Nat
deriving DecidableEq

/-- `getLogsSummary`: all-zero when disabled, else per-level filter counts
over `getLogs()`. -/
def getLogsSummary (st : LoggerState) (env : StorageEnv)
    (slot : Option RawValue) : LogsSummary × Option RawValue :=
  if !st.enabled then (⟨0, 0, 0, 0, 0⟩, slot)
  else
    let r := getLogs st env slot
    ({ total := r.1.length
       errors := (r.1.filter (fun l => l.level = LogLevel.ERROR)).length
       warnings := (r.1.filter (fun l => l.level = LogLevel.WARN)).length
       info := (r.1.filter (fun l => l.level = LogLevel.INFO)).length
       debug := (r.1.filter (fun l => l.level = LogLevel.DEBUG)).length },
     r.2)

/-- One public log call: its level picks which of the four methods runs. -/
structure LogCall where
  level : LogLevel
  amb : Ambient
  message : String
  data : Option JsData
deriving DecidableEq

/-- The entry a call produces. -/
def callEntry (c : LogCall) : LogEntry :=
  createLogEntry c.amb c.level c.message c.data

/-- Dispatch one call to the public method of its level. -/
def runCall (st : LoggerState) (env : StorageEnv) (c : LogCall)
    (slot : Option RawValue) : Option RawValue × List ConsoleMsg :=
  match c.level with
  | LogLevel.DEBUG => debug st env c.amb c.message c.data slot
  | LogLevel.INFO => info st env c.amb c.message c.data slot
  | LogLevel.WARN => warn st env c.amb c.message c.data slot
  | LogLevel.ERROR => error st env c.amb c.message c.data slot

/-- Run a sequence of public log calls, tracking the storage slot. -/
def runCalls (st : LoggerState) (env : StorageEnv) (cs : List LogCall)
    (slot : Option RawValue) : Option RawValue :=
  match cs with
  | [] => slot
  | c :: rest => runCalls st env rest (runCall st env c slot).1

/-- The list transformation one successful `saveLog` performs on the stored
collection: `push`, then `shift` once when over the bound. -/
def pushStep (cap : Nat) (l : List LogEntry) (e : LogEntry) : List LogEntry :=
  if (l ++ [e]).length > cap then (l ++ [e]).tail else l ++ [e]

/-- Iterated `pushStep`: the collection after a run of successful writes. -/
def fifoAppend (cap : Nat) (l : List LogEntry) : List LogEntry → List LogEntry
  | [] => l
  | e :: es => fifoAppend cap (pushStep cap l e) es

/-- A fixed ambient context for concrete evaluations. -/
def amb0 : Ambient := ⟨0, none, "", ""⟩

/-- A concrete log call with the fixed ambient context and no payload. -/
def mkCall (level : LogLevel) (message : String) : LogCall :=
  ⟨level, amb0, message, none⟩

/-- The default state with the capacity bound shrunk to 2, for concrete
evaluations of the eviction policy. -/
def stCap2 : LoggerState := { defaultState with maxLogs := 2 }

end RkLogger

namespace RkLogger

lemma callEntry_level (c : LogCall) : (callEntry c).level = c.level := rfl

lemma runCall_fst (st : LoggerState) (env : StorageEnv) (c : LogCall)
    (slot : Option RawValue) :
    (runCall st env c slot).1 = saveLog st env slot (callEntry c) := by
  cases hc : c.level <;>
    simp [runCall, debug, info, warn, error, logWith, callEntry, hc]

lemma runCall_snd (st : LoggerState) (env : StorageEnv) (c : LogCall)
    (slot : Option RawValue) :
    (runCall st env c slot).2 = logToConsole st (callEntry c) := by
  cases hc : c.level <;>
    simp [runCall, debug, info, warn, error, logWith, callEntry, hc]

lemma getLogs_disabled (st : LoggerState) (env : StorageEnv)
    (slot : Option RawValue) (h : st.enabled = false) :
    getLogs st env slot = ([], slot) := by
  simp [getLogs, h]

lemma getLogs_none (st : LoggerState) (env : StorageEnv) :
    getLogs st env none = ([], none) := by
  cases he : st.enabled <;> simp [getLogs, safeLocalStorageGet, rawFalsy, he]

lemma getLogs_jsonLogs (st : LoggerState) (env : StorageEnv)
    (h1 : st.enabled = true) (hg : env.getOk = true) (l : List LogEntry) :
    getLogs st env (some (RawValue.jsonLogs l)) =
      (l, some (RawValue.jsonLogs l)) := by
  simp [getLogs, safeLocalStorageGet, rawFalsy, parseLogs, h1, hg]

lemma saveLog_disabled (st : LoggerState) (env : StorageEnv)
    (slot : Option RawValue) (e : LogEntry) (h : st.enabled = false) :
    saveLog st env slot e = slot := by
  simp [saveLog, h]

lemma saveLog_not_should (st : LoggerState) (env : StorageEnv)
    (slot : Option RawValue) (e : LogEntry)
    (h : shouldLog st e.level = false) :
    saveLog st env slot e = slot := by
  simp [saveLog, h]

lemma saveLog_ok_eq (st : LoggerState) (env : StorageEnv)
    (slot : Option RawValue) (e : LogEntry) (h1 : st.enabled = true)
    (h2 : shouldLog st e.level = true) (hset : env.setOk = true) :
    saveLog st env slot e =
      some (RawValue.jsonLogs (pushStep st.maxLogs (getLogs st env slot).1 e)) := by
  simp [saveLog, h1, h2, safeLocalStorageSet, hset, pushStep]

lemma getLogs_getLogs (st : LoggerState) (env : StorageEnv)
    (slot : Option RawValue) :
    (getLogs st env (getLogs st env slot).2).1 = (getLogs st env slot).1 := by
  cases he : st.enabled
  · simp [getLogs, he]
  · cases hg : env.getOk
    · simp [getLogs, safeLocalStorageGet, rawFalsy, he, hg]
    · match slot with
      | none => simp [getLogs, safeLocalStorageGet, rawFalsy, he, hg]
      | some (RawValue.jsonLogs l) =>
        simp [getLogs, safeLocalStorageGet, rawFalsy, parseLogs, he, hg]
      | some (RawValue.other s) =>
        cases hs : s.isEmpty
        · cases hr : env.removeOk <;>
            simp [getLogs, safeLocalStorageGet, rawFalsy, parseLogs, clearLogs,
              he, hg, hs, hr]
        · simp [getLogs, safeLocalStorageGet, rawFalsy, he, hg, hs]

lemma fifoAppend_eq_drop (cap : Nat) :
    ∀ (es l : List LogEntry), l.length ≤ cap →
      fifoAppend cap l es = (l ++ es).drop (l.length + es.length - cap) := by
  intro es
  induction es with
  | nil =>
    intro l hl
    have h0 : l.length + ([] : List LogEntry).length - cap = 0 := by
      simp; omega
    rw [h0]
    simp [fifoAppend]
  | cons e es ih =>
    intro l hl
    show fifoAppend cap (pushStep cap l e) es = _
    by_cases hc : (l ++ [e]).length > cap
    · have hlen : l.length = cap := by
        simp [List.length_append] at hc; omega
      have hp : pushStep cap l e = (l ++ [e]).tail := by
        unfold pushStep; exact if_pos hc
      cases l with
      | nil =>
        have hcap : cap = 0 := by simpa using hlen.symm
        subst hcap
        have hp' : pushStep 0 [] e = [] := by simpa using hp
        rw [hp', ih [] (by simp)]
        have i1 : ([] : List LogEntry).length + es.length - 0 = es.length := by
          simp
        have i2 : ([] : List LogEntry).length + (e :: es).length - 0
            = es.length + 1 := by simp
        rw [i1, i2]
        simp [List.drop_length]
      | cons a l' =>
        have hp2 : pushStep cap (a :: l') e = l' ++ [e] := by
          simpa using hp
        have hlen' : (l' ++ [e]).length = cap := by
          simp at hlen ⊢; omega
        rw [hp2, ih (l' ++ [e]) (le_of_eq hlen')]
        have hi1 : (l' ++ [e]).length + es.length - cap = es.length := by
          rw [hlen']; omega
        have hi2 : (a :: l').length + (e :: es).length - cap
            = es.length + 1 := by
          simp at hlen ⊢; omega
        rw [hi1, hi2]
        simp [List.append_assoc]
    · have hp : pushStep cap l e = l ++ [e] := by
        unfold pushStep; exact if_neg hc
      have hle : (l ++ [e]).length ≤ cap := by omega
      rw [hp, ih _ hle]
      have hi : (l ++ [e]).length + es.length - cap
          = l.length + (e :: es).length - cap := by simp; omega
      rw [hi]
      simp [List.append_assoc]

lemma runCalls_jsonLogs (st : LoggerState) (h1 : st.enabled = true) :
    ∀ (cs : List LogCall) (l : List LogEntry),
      (∀ c ∈ cs, shouldLog st c.level = true) →
      runCalls st okEnv cs (some (RawValue.jsonLogs l)) =
        some (RawValue.jsonLogs (fifoAppend st.maxLogs l (cs.map callEntry))) := by
  intro cs
  induction cs with
  | nil => intro l _; rfl
  | cons c cs ih =>
    intro l h2
    have hc : shouldLog st (callEntry c).level = true := by
      rw [callEntry_level]; exact h2 c (List.mem_cons_self c cs)
    show runCalls st okEnv cs (runCall st okEnv c (some (RawValue.jsonLogs l))).1 = _
    rw [runCall_fst, saveLog_ok_eq st okEnv _ _ h1 hc rfl,
      getLogs_jsonLogs st okEnv h1 rfl l]
    exact ih (pushStep st.maxLogs l (callEntry c))
      (fun c' hm => h2 c' (List.mem_cons_of_mem c hm))

lemma slotLogs_runCalls_none (st : LoggerState) (h1 : st.enabled = true)
    (cs : List LogCall) (h2 : ∀ c ∈ cs, shouldLog st c.level = true) :
    slotLogs st okEnv (runCalls st okEnv cs none) =
      fifoAppend st.maxLogs [] (cs.map callEntry) := by
  cases cs with
  | nil => simp [runCalls, slotLogs, getLogs_none, fifoAppend]
  | cons c cs =>
    have hc : shouldLog st (callEntry c).level = true := by
      rw [callEntry_level]; exact h2 c (List.mem_cons_self c cs)
    show slotLogs st okEnv (runCalls st okEnv cs (runCall st okEnv c none).1) = _
    rw [runCall_fst, saveLog_ok_eq st okEnv _ _ h1 hc rfl, getLogs_none]
    rw [runCalls_jsonLogs st h1 cs _
      (fun c' hm => h2 c' (List.mem_cons_of_mem c hm))]
    simp [slotLogs, getLogs_jsonLogs st okEnv h1 rfl]
    rfl

lemma shouldLog_of_le (st : LoggerState) (level : LogLevel)
    (h : levelOrder st.levelThreshold ≤ levelOrder level) :
    shouldLog st level = true := by
  simp [shouldLog]; exact h

/-- C1: on an enabled store with working storage starting from an empty
slot, a sequence of public log calls whose levels are all at or above the
threshold, no longer than `maxLogs`, makes `getLogs()` return exactly the
entries of those calls, in call order, each entry carrying the level of the
call that produced it. -/
theorem getLogs_returns_calls_in_order (st : LoggerState) (cs : List LogCall)
    (h1 : st.enabled = true)
    (h2 : ∀ c ∈ cs, levelOrder st.levelThreshold ≤ levelOrder c.level)
    (h3 : cs.length ≤ st.maxLogs) :
    slotLogs st okEnv (runCalls st okEnv cs none) = cs.map callEntry ∧
    (slotLogs st okEnv (runCalls st okEnv cs none)).map LogEntry.level
      = cs.map LogCall.level := by
  have h2' : ∀ c ∈ cs, shouldLog st c.level = true :=
    fun c hc => shouldLog_of_le st c.level (h2 c hc)
  have hmain := slotLogs_runCalls_none st h1 cs h2'
  rw [fifoAppend_eq_drop st.maxLogs (cs.map callEntry) [] (by simp)] at hmain
  have hidx : ([] : List LogEntry).length + (cs.map callEntry).length
      - st.maxLogs = 0 := by simp; omega
  rw [hidx] at hmain
  simp only [List.nil_append, List.drop_zero] at hmain
  refine ⟨hmain, ?_⟩
  rw [hmain, List.map_map]
  rfl

/-- Witness for C1 at a concrete two-call sequence. -/
theorem getLogs_returns_calls_in_order_witness :
    slotLogs defaultState okEnv
        (runCalls defaultState okEnv
          [mkCall LogLevel.INFO "a", mkCall LogLevel.ERROR "b"] none)
      = [mkCall LogLevel.INFO "a", mkCall LogLevel.ERROR "b"].map callEntry ∧
    (slotLogs defaultState okEnv
        (runCalls defaultState okEnv
          [mkCall LogLevel.INFO "a", mkCall LogLevel.ERROR "b"] none)).map
        LogEntry.level
      = [mkCall LogLevel.INFO "a", mkCall LogLevel.ERROR "b"].map
        LogCall.level :=
  getLogs_returns_calls_in_order defaultState
    [mkCall LogLevel.INFO "a", mkCall LogLevel.ERROR "b"]
    rfl (by decide) (by decide)

/-- C2: starting from an empty slot on an enabled store with working
storage, the persisted collection never exceeds `maxLogs`, and after
`N > maxLogs` above-threshold calls `getLogs()` has length exactly `maxLogs`
and holds exactly the most recent `maxLogs` entries (oldest evicted
first). -/
theorem capacity_bound_and_fifo (st : LoggerState) (h1 : st.enabled = true) :
    (∀ cs : List LogCall,
      (∀ c ∈ cs, levelOrder st.levelThreshold ≤ levelOrder c.level) →
      (slotLogs st okEnv (runCalls st okEnv cs none)).length ≤ st.maxLogs)
    ∧ (∀ cs : List LogCall,
      (∀ c ∈ cs, levelOrder st.levelThreshold ≤ levelOrder c.level) →
      st.maxLogs < cs.length →
      (slotLogs st okEnv (runCalls st okEnv cs none)).length = st.maxLogs ∧
      slotLogs st okEnv (runCalls st okEnv cs none)
        = (cs.map callEntry).drop (cs.length - st.maxLogs)) := by
  have core : ∀ cs : List LogCall,
      (∀ c ∈ cs, levelOrder st.levelThreshold ≤ levelOrder c.level) →
      slotLogs st okEnv (runCalls st okEnv cs none)
        = (cs.map callEntry).drop (cs.length - st.maxLogs) := by
    intro cs h2
    have h2' : ∀ c ∈ cs, shouldLog st c.level = true :=
      fun c hc => shouldLog_of_le st c.level (h2 c hc)
    have hmain := slotLogs_runCalls_none st h1 cs h2'
    rw [fifoAppend_eq_drop st.maxLogs (cs.map callEntry) [] (by simp)] at hmain
    simpa using hmain
  constructor
  · intro cs h2
    rw [core cs h2]
    simp [List.length_drop]
    omega
  · intro cs h2 h3
    refine ⟨?_, core cs h2⟩
    rw [core cs h2]
    simp [List.length_drop]
    omega

/-- Witness for C2: three calls against a bound of 2 retain the last two. -/
theorem capacity_bound_and_fifo_witness :
    (slotLogs stCap2 okEnv (runCalls stCap2 okEnv
        [mkCall LogLevel.INFO "a", mkCall LogLevel.WARN "b",
          mkCall LogLevel.ERROR "c"] none)).length ≤ stCap2.maxLogs ∧
    (slotLogs stCap2 okEnv (runCalls stCap2 okEnv
        [mkCall LogLevel.INFO "a", mkCall LogLevel.WARN "b",
          mkCall LogLevel.ERROR "c"] none)).length = stCap2.maxLogs ∧
    slotLogs stCap2 okEnv (runCalls stCap2 okEnv
        [mkCall LogLevel.INFO "a", mkCall LogLevel.WARN "b",
          mkCall LogLevel.ERROR "c"] none)
      = ([mkCall LogLevel.INFO "a", mkCall LogLevel.WARN "b",
          mkCall LogLevel.ERROR "c"].map callEntry).drop
          ([mkCall LogLevel.INFO "a", mkCall LogLevel.WARN "b",
            mkCall LogLevel.ERROR "c"].length - stCap2.maxLogs) :=
  ⟨(capacity_bound_and_fifo stCap2 rfl).1
      [mkCall LogLevel.INFO "a", mkCall LogLevel.WARN "b",
        mkCall LogLevel.ERROR "c"] (by decide),
    (capacity_bound_and_fifo stCap2 rfl).2
      [mkCall LogLevel.INFO "a", mkCall LogLevel.WARN "b",
        mkCall LogLevel.ERROR "c"] (by decide) (by decide)⟩

/-- C3: a call strictly below the threshold on an enabled store leaves the
slot untouched and emits nothing to the console (the call is total, hence
returns normally), for every storage environment. -/
theorem below_threshold_is_silent (st : LoggerState) (env : StorageEnv)
    (c : LogCall) (slot : Option RawValue) (h1 : st.enabled = true)
    (h2 : levelOrder c.level < levelOrder st.levelThreshold) :
    runCall st env c slot = (slot, []) := by
  have hs : shouldLog st c.level = false := by
    simp [shouldLog]; omega
  have e1 : (runCall st env c slot).1 = slot := by
    rw [runCall_fst]
    exact saveLog_not_should st env slot (callEntry c)
      (by rw [callEntry_level]; exact hs)
  have e2 : (runCall st env c slot).2 = [] := by
    rw [runCall_snd]
    simp [logToConsole, callEntry_level, hs]
  calc runCall st env c slot
      = ((runCall st env c slot).1, (runCall st env c slot).2) := rfl
    _ = (slot, []) := by rw [e1, e2]

/-- Witness for C3: a DEBUG call under a WARN threshold is dropped. -/
theorem below_threshold_is_silent_witness :
    runCall (setLevelThreshold defaultState LogLevel.WARN) okEnv
        (mkCall LogLevel.DEBUG "m") none = (none, []) :=
  below_threshold_is_silent (setLevelThreshold defaultState LogLevel.WARN)
    okEnv (mkCall LogLevel.DEBUG "m") none rfl (by decide)

/-- C4 counterexample: an INFO call on a disabled store (default DEBUG
threshold, empty slot) performs no storage write, but it is not silently
dropped: `logToConsole` never consults `enabled`, so a console emission
still occurs, refuting "no write ... and no console emission occurs". -/
theorem disabled_call_not_fully_silent :
    ¬ ((runCall (disable defaultState) okEnv (mkCall LogLevel.INFO "m")
          none).1 = none ∧
       (runCall (disable defaultState) okEnv (mkCall LogLevel.INFO "m")
          none).2 = []) := by
  decide

/-- C4 amended: a log call on a disabled store performs no write to the
persisted slot and returns normally (the operation is total), but the
console emission is only suppressed when the entry's level is below the
threshold — a disabled store still mirrors above-threshold entries to the
console. -/
theorem disabled_drops_write_but_mirrors (st : LoggerState)
    (env : StorageEnv) (c : LogCall) (slot : Option RawValue)
    (h : st.enabled = false) :
    (runCall st env c slot).1 = slot ∧
    ((runCall st env c slot).2 = [] ↔ shouldLog st c.level = false) := by
  constructor
  · rw [runCall_fst]
    exact saveLog_disabled st env slot (callEntry c) h
  · rw [runCall_snd]
    cases hs : shouldLog st c.level <;>
      simp [logToConsole, callEntry_level, hs]

/-- Witness for the amended C4 at a concrete disabled store. -/
theorem disabled_drops_write_but_mirrors_witness :
    (runCall (disable defaultState) okEnv (mkCall LogLevel.INFO "m")
        none).1 = none ∧
    ((runCall (disable defaultState) okEnv (mkCall LogLevel.INFO "m")
        none).2 = [] ↔
      shouldLog (disable defaultState) LogLevel.INFO = false) := by
  have h := disabled_drops_write_but_mirrors (disable defaultState) okEnv
    (mkCall LogLevel.INFO "m") none rfl
  exact h

lemma saveLog_setFail (st : LoggerState) (slot : Option RawValue)
    (e : LogEntry) (h1 : st.enabled = true)
    (hs : shouldLog st e.level = true) :
    saveLog st setFailEnv slot e = (getLogs st setFailEnv slot).2 := by
  simp [saveLog, h1, hs, safeLocalStorageSet, setFailEnv]

lemma getLogs_setFail_eq_ok (st : LoggerState) (slot : Option RawValue) :
    getLogs st setFailEnv slot = getLogs st okEnv slot := rfl

/-- C5: when the storage write throws (modelled by `setFailEnv`), an
above-threshold call on an enabled store still returns normally (the
operation is total), still emits its console mirror, and the persisted
collection visible through `getLogs` is unchanged — only the append is
lost. -/
theorem write_failure_swallowed (st : LoggerState) (c : LogCall)
    (slot : Option RawValue) (h1 : st.enabled = true)
    (h2 : levelOrder st.levelThreshold ≤ levelOrder c.level) :
    slotLogs st okEnv (runCall st setFailEnv c slot).1
      = slotLogs st okEnv slot ∧
    (runCall st setFailEnv c slot).2 ≠ [] := by
  have hs : shouldLog st (callEntry c).level = true := by
    rw [callEntry_level]; exact shouldLog_of_le st c.level h2
  constructor
  · rw [runCall_fst, saveLog_setFail st slot (callEntry c) h1 hs,
      getLogs_setFail_eq_ok]
    exact getLogs_getLogs st okEnv slot
  · rw [runCall_snd]
    simp [logToConsole, hs]

/-- Witness for C5: a WARN call over a one-entry collection with failing
writes leaves the collection as it was and still emits. -/
theorem write_failure_swallowed_witness :
    slotLogs defaultState okEnv
        (runCall defaultState setFailEnv (mkCall LogLevel.WARN "w")
          (some (RawValue.jsonLogs [callEntry (mkCall LogLevel.INFO "i")]))).1
      = slotLogs defaultState okEnv
          (some (RawValue.jsonLogs [callEntry (mkCall LogLevel.INFO "i")])) ∧
    (runCall defaultState setFailEnv (mkCall LogLevel.WARN "w")
        (some (RawValue.jsonLogs
          [callEntry (mkCall LogLevel.INFO "i")]))).2 ≠ [] :=
  write_failure_swallowed defaultState (mkCall LogLevel.WARN "w")
    (some (RawValue.jsonLogs [callEntry (mkCall LogLevel.INFO "i")]))
    rfl (by decide)

/-- C6: on an enabled store with working storage, `getLogs()` on a slot
holding a nonempty unparsable string returns the empty sequence and clears
the slot (a subsequent read of the cleared slot also yields empty); on a
disabled store, or on an absent or empty-string slot, it returns the empty
sequence without modifying the slot. -/
theorem corrupt_slot_recovery (st : LoggerState) (s : String)
    (slot : Option RawValue) :
    (st.enabled = true → s.isEmpty = false →
      getLogs st okEnv (some (RawValue.other s)) = ([], none) ∧
      (getLogs st okEnv none).1 = [])
    ∧ (st.enabled = true →
      getLogs st okEnv none = ([], none) ∧
      getLogs st okEnv (some (RawValue.other ""))
        = ([], some (RawValue.other "")))
    ∧ (st.enabled = false → getLogs st okEnv slot = ([], slot)) := by
  refine ⟨fun h1 hs => ⟨?_, ?_⟩, fun h1 => ⟨?_, ?_⟩, fun h1 => ?_⟩
  · simp [getLogs, safeLocalStorageGet, rawFalsy, parseLogs, clearLogs,
      okEnv, h1, hs]
  · rw [getLogs_none]
  · exact getLogs_none st okEnv
  · simp [getLogs, safeLocalStorageGet, rawFalsy, okEnv, h1, String.isEmpty]
  · exact getLogs_disabled st okEnv slot h1

/-- Witness for C6 at a concrete corrupt payload and a disabled store. -/
theorem corrupt_slot_recovery_witness :
    (getLogs defaultState okEnv (some (RawValue.other "oops")) = ([], none) ∧
      (getLogs defaultState okEnv none).1 = ([] : List LogEntry)) ∧
    getLogs (disable defaultState) okEnv (some (RawValue.other "oops"))
      = ([], some (RawValue.other "oops")) :=
  ⟨(corrupt_slot_recovery defaultState "oops" none).1 rfl rfl,
    (corrupt_slot_recovery (disable defaultState) "oops"
      (some (RawValue.other "oops"))).2.2 rfl⟩

/-- C7: initialization in a host environment sweeps the persisted
collection: exactly the entries whose timestamp is at least
`now - logExpireDays` (in milliseconds) survive, i.e. every older entry is
removed and every entry within the window is retained. -/
theorem init_sweep_filters_expired (now : Int) (l : List LogEntry) :
    slotLogs defaultState okEnv
        (initLogger true okEnv now (some (RawValue.jsonLogs l))).2
      = l.filter (fun e =>
          decide (now - (defaultState.logExpireDays : Int)
              * 24 * 60 * 60 * 1000 ≤ e.timestamp))
    ∧ ∀ e : LogEntry,
        (e ∈ slotLogs defaultState okEnv
            (initLogger true okEnv now (some (RawValue.jsonLogs l))).2
          ↔ e ∈ l ∧
            now - (defaultState.logExpireDays : Int) * 24 * 60 * 60 * 1000
              ≤ e.timestamp) := by
  have hfilter : slotLogs defaultState okEnv
      (initLogger true okEnv now (some (RawValue.jsonLogs l))).2
      = l.filter (fun e =>
          decide (now - (defaultState.logExpireDays : Int)
              * 24 * 60 * 60 * 1000 ≤ e.timestamp)) := by
    show slotLogs defaultState okEnv
        (cleanExpiredLogs defaultState okEnv now
          (some (RawValue.jsonLogs l))) = _
    rw [cleanExpiredLogs, getLogs_jsonLogs defaultState okEnv rfl rfl l]
    by_cases hlen : (l.filter (fun e =>
        decide (now - (defaultState.logExpireDays : Int)
            * 24 * 60 * 60 * 1000 ≤ e.timestamp))).length = l.length
    · have hfe := (List.filter_sublist (p := fun e =>
          decide (now - (defaultState.logExpireDays : Int)
              * 24 * 60 * 60 * 1000 ≤ e.timestamp)) l).eq_of_length hlen
      simp only [hlen, ne_eq, not_true_eq_false, if_false]
      rw [slotLogs, getLogs_jsonLogs defaultState okEnv rfl rfl l]
      exact hfe.symm
    · have hset : safeLocalStorageSet okEnv (some (RawValue.jsonLogs l))
          (RawValue.jsonLogs (l.filter (fun e =>
            decide (now - (defaultState.logExpireDays : Int)
                * 24 * 60 * 60 * 1000 ≤ e.timestamp))))
          = some (RawValue.jsonLogs (l.filter (fun e =>
            decide (now - (defaultState.logExpireDays : Int)
                * 24 * 60 * 60 * 1000 ≤ e.timestamp)))) := rfl
      simp only [ne_eq, hlen, not_false_eq_true, if_true, hset]
      rw [slotLogs, getLogs_jsonLogs defaultState okEnv rfl rfl]
  refine ⟨hfilter, fun e => ?_⟩
  rw [hfilter]
  simp [List.mem_filter]

/-- C8: the export round-trip — parsing the text `exportLogs()` returns
yields exactly the collection `getLogs()` reports (for a disabled store,
both are empty), in every storage environment. -/
theorem export_parses_to_getLogs (st : LoggerState) (env : StorageEnv)
    (slot : Option RawValue) :
    parseLogs (exportLogs st env slot).1
      = some (slotLogs st env (exportLogs st env slot).2) := by
  cases he : st.enabled
  · simp [exportLogs, he, parseLogs, slotLogs, getLogs]
  · simp [exportLogs, he, parseLogs, slotLogs]
    exact (getLogs_getLogs st env slot).symm

/-- C9: `getLogsSummary()` reports the length of the persisted collection
and, per level, the number of its entries of that level; on a disabled
store all five counts are zero. -/
theorem summary_counts_match (st : LoggerState) (l : List LogEntry)
    (slot : Option RawValue) :
    (st.enabled = true →
      (getLogsSummary st okEnv (some (RawValue.jsonLogs l))).1
        = { total := l.length
            errors := l.countP (fun e => decide (e.level = LogLevel.ERROR))
            warnings := l.countP (fun e => decide (e.level = LogLevel.WARN))
            info := l.countP (fun e => decide (e.level = LogLevel.INFO))
            debug := l.countP (fun e => decide (e.level = LogLevel.DEBUG)) })
    ∧ (st.enabled = false →
      (getLogsSummary st okEnv slot).1 = ⟨0, 0, 0, 0, 0⟩) := by
  constructor
  · intro h1
    simp [getLogsSummary, getLogs_jsonLogs st okEnv h1 rfl, h1,
      List.countP_eq_length_filter]
  · intro h1
    simp [getLogsSummary, h1]

/-- Witness for C9 at the spec's example mix: two ERROR, one WARN, three
INFO and no DEBUG entries. -/
theorem summary_counts_match_witness :
    (getLogsSummary defaultState okEnv (some (RawValue.jsonLogs
        [callEntry (mkCall LogLevel.ERROR "e1"),
          callEntry (mkCall LogLevel.ERROR "e2"),
          callEntry (mkCall LogLevel.WARN "w1"),
          callEntry (mkCall LogLevel.INFO "i1"),
          callEntry (mkCall LogLevel.INFO "i2"),
          callEntry (mkCall LogLevel.INFO "i3")]))).1
      = { total := [callEntry (mkCall LogLevel.ERROR "e1"),
            callEntry (mkCall LogLevel.ERROR "e2"),
            callEntry (mkCall LogLevel.WARN "w1"),
            callEntry (mkCall LogLevel.INFO "i1"),
            callEntry (mkCall LogLevel.INFO "i2"),
            callEntry (mkCall LogLevel.INFO "i3")].length
          errors := [callEntry (mkCall LogLevel.ERROR "e1"),
            callEntry (mkCall LogLevel.ERROR "e2"),
            callEntry (mkCall LogLevel.WARN "w1"),
            callEntry (mkCall LogLevel.INFO "i1"),
            callEntry (mkCall LogLevel.INFO "i2"),
            callEntry (mkCall LogLevel.INFO "i3")].countP
              (fun e => decide (e.level = LogLevel.ERROR))
          warnings := [callEntry (mkCall LogLevel.ERROR "e1"),
            callEntry (mkCall LogLevel.ERROR "e2"),
            callEntry (mkCall LogLevel.WARN "w1"),
            callEntry (mkCall LogLevel.INFO "i1"),
            callEntry (mkCall LogLevel.INFO "i2"),
            callEntry (mkCall LogLevel.INFO "i3")].countP
              (fun e => decide (e.level = LogLevel.WARN))
          info := [callEntry (mkCall LogLevel.ERROR "e1"),
            callEntry (mkCall LogLevel.ERROR "e2"),
            callEntry (mkCall LogLevel.WARN "w1"),
            callEntry (mkCall LogLevel.INFO "i1"),
            callEntry (mkCall LogLevel.INFO "i2"),
            callEntry (mkCall LogLevel.INFO "i3")].countP
              (fun e => decide (e.level = LogLevel.INFO))
          debug := [callEntry (mkCall LogLevel.ERROR "e1"),
            callEntry (mkCall LogLevel.ERROR "e2"),
            callEntry (mkCall LogLevel.WARN "w1"),
            callEntry (mkCall LogLevel.INFO "i1"),
            callEntry (mkCall LogLevel.INFO "i2"),
            callEntry (mkCall LogLevel.INFO "i3")].countP
              (fun e => decide (e.level = LogLevel.DEBUG)) } :=
  (summary_counts_match defaultState
    [callEntry (mkCall LogLevel.ERROR "e1"),
      callEntry (mkCall LogLevel.ERROR "e2"),
      callEntry (mkCall LogLevel.WARN "w1"),
      callEntry (mkCall LogLevel.INFO "i1"),
      callEntry (mkCall LogLevel.INFO "i2"),
      callEntry (mkCall LogLevel.INFO "i3")] none).1 rfl

lemma length_pushStep (cap : Nat) (l : List LogEntry) (e : LogEntry) :
    (pushStep cap l e).length
      = if l.length < cap then l.length + 1 else l.length := by
  by_cases hc : (l ++ [e]).length > cap
  · have h1 : ¬ l.length < cap := by
      simp [List.length_append] at hc; omega
    unfold pushStep
    rw [if_pos hc, if_neg h1]
    simp [List.length_tail]
  · have h1 : l.length < cap := by
      simp [List.length_append] at hc; omega
    unfold pushStep
    rw [if_neg hc, if_pos h1]
    simp

/-- C10: one successful above-threshold `saveLog` on an enabled store with
working storage changes the stored length from `L` to `L + 1` when
`L < maxLogs` and to `L` otherwise — it evicts at most one entry, so a slot
already holding more than `maxLogs` entries is not trimmed down to the
bound by a single call. -/
theorem single_call_evicts_at_most_one (st : LoggerState) (e : LogEntry)
    (slot : Option RawValue) (h1 : st.enabled = true)
    (h2 : levelOrder st.levelThreshold ≤ levelOrder e.level) :
    (slotLogs st okEnv (saveLog st okEnv slot e)).length
      = if (slotLogs st okEnv slot).length < st.maxLogs
        then (slotLogs st okEnv slot).length + 1
        else (slotLogs st okEnv slot).length := by
  have hs := shouldLog_of_le st e.level h2
  rw [slotLogs, saveLog_ok_eq st okEnv slot e h1 hs rfl,
    getLogs_jsonLogs st okEnv h1 rfl]
  exact length_pushStep st.maxLogs (slotLogs st okEnv slot) e

/-- Witness for C10: a slot holding three entries under a bound of two
stays at three entries after one call. -/
theorem single_call_evicts_at_most_one_witness :
    (slotLogs stCap2 okEnv (saveLog stCap2 okEnv
        (some (RawValue.jsonLogs
          [callEntry (mkCall LogLevel.INFO "x"),
            callEntry (mkCall LogLevel.INFO "y"),
            callEntry (mkCall LogLevel.INFO "z")]))
        (callEntry (mkCall LogLevel.ERROR "w")))).length
      = if (slotLogs stCap2 okEnv (some (RawValue.jsonLogs
            [callEntry (mkCall LogLevel.INFO "x"),
              callEntry (mkCall LogLevel.INFO "y"),
              callEntry (mkCall LogLevel.INFO "z")]))).length
          < stCap2.maxLogs
        then (slotLogs stCap2 okEnv (some (RawValue.jsonLogs
            [callEntry (mkCall LogLevel.INFO "x"),
              callEntry (mkCall LogLevel.INFO "y"),
              callEntry (mkCall LogLevel.INFO "z")]))).length + 1
        else (slotLogs stCap2 okEnv (some (RawValue.jsonLogs
            [callEntry (mkCall LogLevel.INFO "x"),
              callEntry (mkCall LogLevel.INFO "y"),
              callEntry (mkCall LogLevel.INFO "z")]))).length :=
  single_call_evicts_at_most_one stCap2
    (callEntry (mkCall LogLevel.ERROR "w"))
    (some (RawValue.jsonLogs
      [callEntry (mkCall LogLevel.INFO "x"),
        callEntry (mkCall LogLevel.INFO "y"),
        callEntry (mkCall LogLevel.INFO "z")]))
    rfl (by decide)

end RkLogger
